import Mathlib

/-!
Verification development for the markdown2pdf repository.

The definitions below are shallow embeddings of the Rust sources under
src/src/lib (styling.rs, config.rs, pdf.rs, fonts.rs, lib.rs).  Machine
floats (f32 spacing and margin fields) are represented by rationals: the
code stores and passes these values around without arithmetic, so the
representation is exact for everything proved here.  Rust u8 casts are
modelled with mod 256 arithmetic on integers.
-/

namespace M2P

/-- Text alignment options, from styling.rs (enum TextAlignment). -/
inductive TextAlignment where
  | Left
  | Center
  | Right
  | Justify
deriving DecidableEq, Repr

/-- Margins in points, from styling.rs (struct Margins, f32 fields modelled as rationals). -/
structure Margins where
  top : Rat
  right : Rat
  bottom : Rat
  left : Rat
deriving DecidableEq, Repr

/-- Basic text styling properties, from styling.rs (struct BasicTextStyle). -/
structure BasicTextStyle where
  size : Nat
  text_color : Option (Nat × Nat × Nat)
  before_spacing : Rat
  after_spacing : Rat
  alignment : Option TextAlignment
  font_family : Option String
  bold : Bool
  italic : Bool
  underline : Bool
  strikethrough : Bool
  background_color : Option (Nat × Nat × Nat)
deriving DecidableEq, Repr

/-- Constructor mirroring BasicTextStyle::new in styling.rs: optional spacings
default to 0.0 via unwrap_or. -/
def BasicTextStyle.new (size : Nat) (text_color : Option (Nat × Nat × Nat))
    (before_spacing after_spacing : Option Rat) (alignment : Option TextAlignment)
    (font_family : Option String) (bold italic underline strikethrough : Bool)
    (background_color : Option (Nat × Nat × Nat)) : BasicTextStyle :=
  { size := size
    text_color := text_color
    before_spacing := before_spacing.getD 0
    after_spacing := after_spacing.getD 0
    alignment := alignment
    font_family := font_family
    bold := bold
    italic := italic
    underline := underline
    strikethrough := strikethrough
    background_color := background_color }

/-- Style configuration mapping markdown elements to PDF styles, from styling.rs
(struct StyleMatch). -/
structure StyleMatch where
  margins : Margins
  heading_1 : BasicTextStyle
  heading_2 : BasicTextStyle
  heading_3 : BasicTextStyle
  emphasis : BasicTextStyle
  strong_emphasis : BasicTextStyle
  code : BasicTextStyle
  block_quote : BasicTextStyle
  list_item : BasicTextStyle
  link : BasicTextStyle
  image : BasicTextStyle
  text : BasicTextStyle
  horizontal_rule : BasicTextStyle
deriving DecidableEq, Repr

/-- Default style settings, from the Default impl for StyleMatch in styling.rs. -/
def StyleMatch.default : StyleMatch :=
  { margins := { top := 8, right := 8, bottom := 8, left := 8 }
    heading_1 := BasicTextStyle.new 14 (some (0, 0, 0)) (some (4/5)) (some (1/2))
      (some TextAlignment.Center) none true false false false none
    heading_2 := BasicTextStyle.new 12 (some (0, 0, 0)) (some (4/5)) (some (1/2))
      (some TextAlignment.Left) none true false false false none
    heading_3 := BasicTextStyle.new 10 (some (0, 0, 0)) (some (4/5)) (some (1/2))
      (some TextAlignment.Left) none true false false false none
    emphasis := BasicTextStyle.new 8 (some (0, 0, 0)) none none none none
      false true false false none
    strong_emphasis := BasicTextStyle.new 8 (some (0, 0, 0)) none none none none
      true false false false none
    code := BasicTextStyle.new 8 (some (128, 128, 128)) (some (2/5)) (some (2/5))
      none (some "Roboto") false false false false (some (230, 230, 230))
    block_quote := BasicTextStyle.new 8 (some (128, 128, 128)) none none none none
      false true false false (some (245, 245, 245))
    list_item := BasicTextStyle.new 8 (some (0, 0, 0)) none (some (1/2)) none none
      false false false false none
    link := BasicTextStyle.new 8 (some (128, 128, 128)) none none none none
      false false true false none
    image := BasicTextStyle.new 8 (some (0, 0, 0)) none none
      (some TextAlignment.Center) none false false false false none
    text := BasicTextStyle.new 8 (some (0, 0, 0)) none none none none
      false false false false none
    horizontal_rule := BasicTextStyle.new 8 (some (0, 0, 0)) none (some (1/2)) none none
      false false false false none }

/-- Per-column alignment of a GFM table (spec section 3, Token data model). -/
inductive ColAlign where
  | Left
  | Center
  | Right
deriving DecidableEq, Repr

/-- Markdown token, the tagged variant of the data model.  The Token type is
declared by the markdown module (lib.rs declares the module; the file itself is
not present under src), so payloads follow the consumption sites in pdf.rs and
the data model of spec section 3. -/
inductive Token where
  | Heading (content : List Token) (level : Nat)
  | Emphasis (level : Nat) (content : List Token)
  | StrongEmphasis (content : List Token)
  | Code (lang : String) (content : String)
  | BlockQuote (content : String)
  | ListItem (content : List Token) (ordered : Bool) (number : Option Nat)
  | Link (text : String) (url : String)
  | Image (alt : String) (url : String)
  | Table (headers : List (List Token)) (alignments : List ColAlign)
      (rows : List (List (List Token)))
  | Text (content : String)
  | HtmlComment (content : String)
  | Newline
  | HorizontalRule
  | Unknown (content : String)

/-- Style value of the PDF composition library (genpdfi::style::Style) as used
by pdf.rs: Style::new, with_font_size, bold, italic, with_color.  The underline
decoration is part of the style interface described by the spec (section 4.4
run styling and BasicTextStyle decorations); pdf.rs never invokes a setter for
it, so it can only hold its Style::new default. -/
structure GStyle where
  fontSize : Option Nat
  bold : Bool
  italic : Bool
  underline : Bool
  color : Option (Nat × Nat × Nat)
deriving DecidableEq, Repr

/-- Style::new in genpdfi as used from pdf.rs: the neutral style. -/
def GStyle.new : GStyle :=
  { fontSize := none, bold := false, italic := false, underline := false, color := none }

/-- Style::with_font_size. -/
def GStyle.withFontSize (s : GStyle) (n : Nat) : GStyle := { s with fontSize := some n }

/-- Style::bold (returns the style with the bold effect set). -/
def GStyle.boldOn (s : GStyle) : GStyle := { s with bold := true }

/-- Style::italic (returns the style with the italic effect set). -/
def GStyle.italicOn (s : GStyle) : GStyle := { s with italic := true }

/-- Style::with_color with an Rgb color. -/
def GStyle.withColor (s : GStyle) (c : Nat × Nat × Nat) : GStyle := { s with color := some c }

/-- One styled run pushed into a genpdfi Paragraph: push_styled produces a
styled run, push_link a clickable link run. -/
inductive Run where
  | styled (text : String) (style : GStyle)
  | link (text : String) (url : String) (style : GStyle)
deriving DecidableEq, Repr

/-- One element pushed into the genpdfi Document by pdf.rs: Break::new and
Paragraph (with its accumulated runs). -/
inductive Element where
  | brk (height : Rat)
  | paragraph (runs : List Run)
deriving DecidableEq, Repr

/-- List-of-characters prefix test used by the substring helper. -/
def charsStartWith : List Char → List Char → Bool
  | _, [] => true
  | [], _ :: _ => false
  | a :: as, b :: bs => a == b && charsStartWith as bs

/-- List-of-characters substring test used to model str::contains. -/
def charsHaveSub : List Char → List Char → Bool
  | [], n => n.isEmpty
  | h@(_ :: t), n => charsStartWith h n || charsHaveSub t n

/-- str::contains with a string pattern. -/
def strHasSub (h n : String) : Bool := charsHaveSub h.toList n.toList

/-- str::to_lowercase, applied per character. -/
def strToLower (s : String) : String := String.mk (s.toList.map Char.toLower)

/-- str::starts_with. -/
def strStartsWith (s p : String) : Bool := charsStartWith s.toList p.toList

/-- Splitting a character list at every occurrence of a separator character
(the helper behind str::split with a char pattern and path components). -/
def charsSplit (sep : Char) : List Char → List (List Char)
  | [] => [[]]
  | c :: rest =>
    if c == sep then [] :: charsSplit sep rest
    else
      match charsSplit sep rest with
      | g :: gs => (c :: g) :: gs
      | [] => [[c]]

/-- str::split with a char pattern (the segment list). -/
def strSplitChar (s : String) (sep : Char) : List String :=
  (charsSplit sep s.toList).map String.mk

/-- str::contains with a char pattern. -/
def strContainsChar (s : String) (c : Char) : Bool := s.toList.contains c

/-- Replacement of every occurrence of a pattern in a character list (the
helper behind str::replace; every pattern used in the sources is nonempty,
and an empty pattern leaves the list unchanged here). -/
def charsReplace (pat rep : List Char) (s : List Char) : List Char :=
  match s with
  | [] => []
  | c :: rest =>
    if hpat : pat.isEmpty then c :: rest
    else if charsStartWith (c :: rest) pat then
      rep ++ charsReplace pat rep ((c :: rest).drop pat.length)
    else c :: charsReplace pat rep rest
termination_by s.length
decreasing_by
  · simp_wf
    have hlen : 1 ≤ pat.length := by
      cases pat with
      | nil => simp at hpat
      | cons p ps => simp
    simp [List.length_drop]
    omega
  · simp_wf

/-- str::replace with a string pattern. -/
def strReplace (s pat rep : String) : String :=
  String.mk (charsReplace pat.toList rep.toList s.toList)

/-- Path::file_name: the component after the last separator. -/
def pathFileName (p : String) : String :=
  String.mk ((charsSplit '/' p.toList).getLastD p.toList)

/-- Path::extension: the part of the file name after the last dot, none when
the name has no dot. -/
def pathExtension (p : String) : Option String :=
  match charsSplit '.' (pathFileName p).toList with
  | [] => none
  | [_] => none
  | parts => some (String.mk (parts.getLastD []))

/-- Path::file_stem: the file name with its extension removed. -/
def pathFileStem (p : String) : String :=
  match charsSplit '.' (pathFileName p).toList with
  | [] => ""
  | [single] => String.mk single
  | parts => String.mk (List.intercalate ['.'] parts.dropLast)

/-- Applies an optional text-color override to a style, mirroring the
`if let Some(color) = ... { style.with_color(Rgb(...)) }` pattern in pdf.rs. -/
def applyColorOpt (style : GStyle) : Option (Nat × Nat × Nat) → GStyle
  | some c => style.withColor c
  | none => style

/-- The style modification for Emphasis nesting in
render_inline_content_with_style: level 1 adds italic, level 2 adds bold, and
every other level adds bold and italic. -/
def emphStyle (style : GStyle) (level : Nat) : GStyle :=
  match level with
  | 1 => style.italicOn
  | 2 => style.boldOn
  | _ => style.boldOn.italicOn

mutual

/-- The runs pushed into the paragraph for one token by
render_inline_content_with_style in pdf.rs.  Text pushes a styled run; Emphasis
and StrongEmphasis recurse with a modified style; Link pushes a clickable run
with the configured link text color; inline Code pushes a styled run with the
configured code text color; every other token falls into the empty catch-all
arm. -/
def renderInlineOne (sm : StyleMatch) (style : GStyle) : Token → List Run
  | Token.Text content => [Run.styled content style]
  | Token.Emphasis level content => renderInlineList sm (emphStyle style level) content
  | Token.StrongEmphasis content => renderInlineList sm style.boldOn content
  | Token.Link text url => [Run.link text url (applyColorOpt style sm.link.text_color)]
  | Token.Code _ content => [Run.styled content (applyColorOpt style sm.code.text_color)]
  | _ => []

/-- The run sequence produced by the token loop of
render_inline_content_with_style in pdf.rs. -/
def renderInlineList (sm : StyleMatch) (style : GStyle) : List Token → List Run
  | [] => []
  | t :: ts => renderInlineOne sm style t ++ renderInlineList sm style ts

end

/-- render_inline_content in pdf.rs: inline rendering with the default text
style at the configured text size. -/
def renderInlineContent (sm : StyleMatch) (tokens : List Token) : List Run :=
  renderInlineList sm (GStyle.new.withFontSize sm.text.size) tokens

/-- flush_paragraph in pdf.rs: an empty token slice pushes nothing; otherwise a
Break with the text before spacing, a paragraph of the inline-rendered tokens,
and a Break with the text after spacing are pushed. -/
def flushParagraph (sm : StyleMatch) (tokens : List Token) : List Element :=
  if tokens.isEmpty then []
  else
    [Element.brk sm.text.before_spacing,
     Element.paragraph (renderInlineContent sm tokens),
     Element.brk sm.text.after_spacing]

/-- The heading style selection in render_heading: level 1 takes heading_1,
level 2 takes heading_2, every other level falls into the catch-all arm and
takes heading_3. -/
def headingStyleOf (sm : StyleMatch) (level : Nat) : BasicTextStyle :=
  match level with
  | 1 => sm.heading_1
  | 2 => sm.heading_2
  | _ => sm.heading_3

/-- The genpdfi style built by render_heading from the selected heading style:
font size, then conditional bold, italic and text color. -/
def headingGStyle (hs : BasicTextStyle) : GStyle :=
  let s0 := GStyle.new.withFontSize hs.size
  let s1 := if hs.bold then s0.boldOn else s0
  let s2 := if hs.italic then s1.italicOn else s1
  applyColorOpt s2 hs.text_color

/-- render_heading in pdf.rs: Break with before spacing, a paragraph of the
content rendered in the heading style, Break with after spacing. -/
def renderHeading (sm : StyleMatch) (content : List Token) (level : Nat) : List Element :=
  let hs := headingStyleOf sm level
  [Element.brk hs.before_spacing,
   Element.paragraph (renderInlineList sm (headingGStyle hs) content),
   Element.brk hs.after_spacing]

/-- render_code_block in pdf.rs: Break with code before spacing, one paragraph
per line of content (split on the newline character), each line prefixed by the
fixed four-space indent and styled with code size and text color, then Break
with code after spacing.  The language argument is unused. -/
def renderCodeBlock (sm : StyleMatch) (_lang : String) (content : String) : List Element :=
  let style := applyColorOpt (GStyle.new.withFontSize sm.code.size) sm.code.text_color
  [Element.brk sm.code.before_spacing]
    ++ (strSplitChar content (Char.ofNat 10)).map
        (fun line => Element.paragraph [Run.styled ("    " ++ line) style])
    ++ [Element.brk sm.code.after_spacing]

/-- The string repetition "    ".repeat(nesting_level) used by
render_list_item for the indent. -/
def strRepeat (s : String) : Nat → String
  | 0 => ""
  | n + 1 => strRepeat s n ++ s

/-- Whether a token is a ListItem, mirroring the matches! filter in
render_list_item. -/
def isListItemTok : Token → Bool
  | Token.ListItem _ _ _ => true
  | _ => false

/-- The marker run pushed at the start of a list item paragraph: indent plus
a dash marker when unordered, indent plus the number and a dot when ordered
with a number, nothing otherwise (mirrors the if / else-if in
render_list_item). -/
def listMarkerRuns (style : GStyle) (ordered : Bool) (number : Option Nat)
    (nesting : Nat) : List Run :=
  let indent := strRepeat "    " nesting
  if !ordered then [Run.styled (indent ++ "- ") style]
  else
    match number with
    | some n => [Run.styled (indent ++ toString n ++ ". ") style]
    | none => []

mutual

/-- render_list_item in pdf.rs: Break with list before spacing, one paragraph
made of the marker run followed by the inline rendering of the content with
nested ListItems filtered out, Break with list after spacing; then each nested
ListItem in content is rendered recursively with nesting level + 1. -/
def renderListItem (sm : StyleMatch) (content : List Token) (ordered : Bool)
    (number : Option Nat) (nesting : Nat) : List Element :=
  let style := GStyle.new.withFontSize sm.list_item.size
  [Element.brk sm.list_item.before_spacing,
   Element.paragraph
     (listMarkerRuns style ordered number nesting
       ++ renderInlineList sm style (content.filter (fun t => !isListItemTok t))),
   Element.brk sm.list_item.after_spacing]
    ++ renderNestedItems sm content (nesting + 1)

/-- The trailing loop of render_list_item: every nested ListItem of the content
is rendered at the given (already incremented) nesting level, in order. -/
def renderNestedItems (sm : StyleMatch) : List Token → Nat → List Element
  | [], _ => []
  | Token.ListItem c o n :: rest, d => renderListItem sm c o n d ++ renderNestedItems sm rest d
  | _ :: rest, d => renderNestedItems sm rest d

end

/-- process_tokens in pdf.rs: the linear scan with the current_tokens inline
buffer.  Headings, list items, code containing a newline, horizontal rules and
newlines flush the buffer and dispatch; everything else is pushed into the
buffer; the buffer is flushed once more at the end. -/
def processTokens (sm : StyleMatch) : List Token → List Token → List Element
  | [], cur => flushParagraph sm cur
  | t :: rest, cur =>
    match t with
    | Token.Heading content level =>
        flushParagraph sm cur ++ renderHeading sm content level ++ processTokens sm rest []
    | Token.ListItem content ordered number =>
        flushParagraph sm cur ++ renderListItem sm content ordered number 0
          ++ processTokens sm rest []
    | Token.Code lang content =>
        if strContainsChar content (Char.ofNat 10) then
          flushParagraph sm cur ++ renderCodeBlock sm lang content ++ processTokens sm rest []
        else
          processTokens sm rest (cur ++ [t])
    | Token.HorizontalRule =>
        flushParagraph sm cur ++ [Element.brk sm.horizontal_rule.after_spacing]
          ++ processTokens sm rest []
    | Token.Newline =>
        flushParagraph sm cur ++ processTokens sm rest []
    | _ => processTokens sm rest (cur ++ [t])

/-- The genpdfi Document as configured by Pdf::render_into_document: margins
from the style, base font size from the text style, and the pushed elements. -/
structure PDoc where
  marginTop : Rat
  marginRight : Rat
  marginBottom : Rat
  marginLeft : Rat
  fontSize : Nat
  elements : List Element
deriving DecidableEq, Repr

/-- Pdf::render_into_document in pdf.rs: creates the document, sets the page
decorator margins (top, right, bottom, left) and the base font size from the
text style, then processes all input tokens into it. -/
def renderIntoDocument (sm : StyleMatch) (input : List Token) : PDoc :=
  { marginTop := sm.margins.top
    marginRight := sm.margins.right
    marginBottom := sm.margins.bottom
    marginLeft := sm.margins.left
    fontSize := sm.text.size
    elements := processTokens sm input [] }

/-! Configuration loading, from config.rs.  The external toml crate parses the
TOML text into a Value tree; that parser is outside the repository, so the
Value data model is embedded and the text-to-Value step is represented by its
outcome (none for text that is not valid TOML). -/

/-- The toml::Value variants used by config.rs (integer, float, boolean,
string, table). -/
inductive TomlValue where
  | integer (i : Int)
  | float (q : Rat)
  | boolean (b : Bool)
  | str (s : String)
  | table (entries : List (String × TomlValue))

/-- Value::get: key lookup in a table value (first binding wins), none on
non-table values. -/
def TomlValue.get (v : TomlValue) (key : String) : Option TomlValue :=
  match v with
  | TomlValue.table entries => entries.lookup key
  | _ => none

/-- Value::as_integer. -/
def TomlValue.asInteger : TomlValue → Option Int
  | TomlValue.integer i => some i
  | _ => none

/-- Value::as_float. -/
def TomlValue.asFloat : TomlValue → Option Rat
  | TomlValue.float q => some q
  | _ => none

/-- Value::as_bool. -/
def TomlValue.asBool : TomlValue → Option Bool
  | TomlValue.boolean b => some b
  | _ => none

/-- Value::as_str. -/
def TomlValue.asStr : TomlValue → Option String
  | TomlValue.str s => some s
  | _ => none

/-- The Rust cast `i as u8` on a toml integer (two's complement truncation). -/
def intAsU8 (i : Int) : Nat := (i % 256).toNat

/-- parse_color in config.rs: reads the named field of the config value and
requires integer r, g and b components, each cast to u8. -/
def parseColor (value : Option TomlValue) (field : String) : Option (Nat × Nat × Nat) :=
  value.bind fun c => do
    let color ← c.get field
    let r ← (← color.get "r").asInteger
    let g ← (← color.get "g").asInteger
    let b ← (← color.get "b").asInteger
    some (intAsU8 r, intAsU8 g, intAsU8 b)

/-- parse_alignment in config.rs: any string parses (unrecognized strings fall
back to Left); non-strings give none. -/
def parseAlignment (value : Option TomlValue) : Option TextAlignment :=
  (value.bind TomlValue.asStr).map fun s =>
    match s with
    | "left" => TextAlignment.Left
    | "center" => TextAlignment.Center
    | "right" => TextAlignment.Right
    | "justify" => TextAlignment.Justify
    | _ => TextAlignment.Left

/-- map_font_family in config.rs: always returns the given name (the Rust code
leaks the string to obtain a static reference). -/
def mapFontFamily (font : String) : Option String := some font

/-- parse_style in config.rs.  Each property is taken from the configuration
when its lookup and coercion succeed and is left at the given default
otherwise; the source assigns the fields one by one on a copy of the default,
which is the same field-per-field result. -/
def parseStyle (value : Option TomlValue) (dflt : BasicTextStyle) : BasicTextStyle :=
  match value with
  | none => dflt
  | some cfg =>
    { size := match (cfg.get "size").bind TomlValue.asInteger with
        | some i => intAsU8 i
        | none => dflt.size
      before_spacing := match (cfg.get "beforespacing").bind TomlValue.asFloat with
        | some q => q
        | none => dflt.before_spacing
      after_spacing := match (cfg.get "afterspacing").bind TomlValue.asFloat with
        | some q => q
        | none => dflt.after_spacing
      text_color := match parseColor (some cfg) "textcolor" with
        | some c => some c
        | none => dflt.text_color
      background_color := match parseColor (some cfg) "backgroundcolor" with
        | some c => some c
        | none => dflt.background_color
      alignment := match parseAlignment (cfg.get "alignment") with
        | some a => some a
        | none => dflt.alignment
      font_family := match (cfg.get "fontfamily").bind TomlValue.asStr with
        | some f => mapFontFamily f
        | none => dflt.font_family
      bold := match (cfg.get "bold").bind TomlValue.asBool with
        | some b => b
        | none => dflt.bold
      italic := match (cfg.get "italic").bind TomlValue.asBool with
        | some b => b
        | none => dflt.italic
      underline := match (cfg.get "underline").bind TomlValue.asBool with
        | some b => b
        | none => dflt.underline
      strikethrough := match (cfg.get "strikethrough").bind TomlValue.asBool with
        | some b => b
        | none => dflt.strikethrough }

/-- parse_config_string in config.rs, over the outcome of toml::from_str:
text that the external toml parser rejects yields the default StyleMatch;
otherwise the margin table and the per-element style sections are read, with
defaults for everything missing. -/
def parseConfigString (parsed : Option TomlValue) : StyleMatch :=
  match parsed with
  | none => StyleMatch.default
  | some config =>
    let dflt := StyleMatch.default
    let margins :=
      match config.get "margin" with
      | some m =>
        { top := ((m.get "top").bind TomlValue.asFloat).getD 8
          right := ((m.get "right").bind TomlValue.asFloat).getD 8
          bottom := ((m.get "bottom").bind TomlValue.asFloat).getD 8
          left := ((m.get "left").bind TomlValue.asFloat).getD 8 : Margins }
      | none => dflt.margins
    { margins := margins
      heading_1 := parseStyle ((config.get "heading").bind (fun h => h.get "1")) dflt.heading_1
      heading_2 := parseStyle ((config.get "heading").bind (fun h => h.get "2")) dflt.heading_2
      heading_3 := parseStyle ((config.get "heading").bind (fun h => h.get "3")) dflt.heading_3
      emphasis := parseStyle (config.get "emphasis") dflt.emphasis
      strong_emphasis := parseStyle (config.get "strong_emphasis") dflt.strong_emphasis
      code := parseStyle (config.get "code") dflt.code
      block_quote := parseStyle (config.get "block_quote") dflt.block_quote
      list_item := parseStyle (config.get "list_item") dflt.list_item
      link := parseStyle (config.get "link") dflt.link
      image := parseStyle (config.get "image") dflt.image
      text := parseStyle (config.get "text") dflt.text
      horizontal_rule := parseStyle (config.get "horizontal_rule") dflt.horizontal_rule }

/-- Configuration source, from config.rs (enum ConfigSource).  The File
variant carries the outcome of fs::read_to_string followed by toml::from_str
(both effects are outside the pure embedding): none means the path could not
be read, some none means the content is not valid TOML, some (some v) is
parsed content.  The Embedded variant likewise carries the toml parse
outcome of its string. -/
inductive ConfigSource where
  | Default
  | File (readAndParse : Option (Option TomlValue))
  | Embedded (parsed : Option TomlValue)

/-- load_config_from_source in config.rs: Default yields the default style, an
unreadable File yields the default style, and readable or embedded content
goes through parse_config_string. -/
def loadConfigFromSource : ConfigSource → StyleMatch
  | ConfigSource.Default => StyleMatch.default
  | ConfigSource.File readAndParse =>
    match readAndParse with
    | none => StyleMatch.default
    | some parsed => parseConfigString parsed
  | ConfigSource.Embedded parsed => parseConfigString parsed

/-- The style-section keys read by parse_style (directly or through
parse_color and parse_alignment). -/
def styleKeys : List String :=
  ["size", "beforespacing", "afterspacing", "textcolor", "backgroundcolor",
   "alignment", "fontfamily", "bold", "italic", "underline", "strikethrough"]

/-! Font resolution, from fonts.rs.  File system state (which directories
exist, which font files are readable and with what bytes), the fontdb face
database and the external font parsers (rusttype::Font::from_bytes and
genpdfi FontData construction) are the environment of these functions; they
are gathered in a FontEnv record.  The platform-dependent common directory
list (a cfg! constant in the source) is part of the environment. -/

/-- One of the 14 builtin PDF fonts referenced by fonts.rs
(printpdf::BuiltinFont, the twelve variants used). -/
inductive BuiltinFont where
  | Helvetica | HelveticaBold | HelveticaOblique | HelveticaBoldOblique
  | TimesRoman | TimesBold | TimesItalic | TimesBoldItalic
  | Courier | CourierBold | CourierOblique | CourierBoldOblique
deriving DecidableEq, Repr

/-- Font data as constructed by fonts.rs: the (shared) raw bytes and an
optional builtin font reference (FontData::new_shared arguments). -/
structure FontData where
  bytes : List Nat
  builtin : Option BuiltinFont
deriving DecidableEq, Repr

/-- A font family of four faces (genpdfi::fonts::FontFamily). -/
structure FontFamily where
  regular : FontData
  bold : FontData
  italic : FontData
  bold_italic : FontData
deriving DecidableEq, Repr

/-- One fontdb face as used by fonts.rs: its file path and its first family
name (face.families.first()). -/
structure DbFace where
  path : String
  family : String
deriving DecidableEq, Repr

/-- The environment of the font loaders: platform directory constants, file
system state, the fontdb database, and the external parsers represented by
acceptance predicates (rtParses for rusttype::Font::from_bytes, fdParses for
genpdfi FontData construction). -/
structure FontEnv where
  commonFontDirs : List String
  existingDirs : List String
  files : List (String × List Nat)
  dbFaces : List DbFace
  rtParses : List Nat → Bool
  fdParses : List Nat → Bool

/-- fs::read on the environment: returns the bytes of a readable file. -/
def readFile (env : FontEnv) (p : String) : Option (List Nat) := env.files.lookup p

/-- The four file name patterns tried for a candidate in the fast path of
load_system_font_bytes_fallback. -/
def fastPatterns (candidate : String) : List String :=
  [candidate ++ ".ttf", candidate ++ ".otf",
   candidate ++ " Regular.ttf", candidate ++ "-Regular.ttf"]

/-- The pattern loop of the fast path: an existing readable file whose bytes
parse as a font is returned; otherwise the next pattern is tried. -/
def tryPatternList (env : FontEnv) (dir : String) : List String → Option (List Nat)
  | [] => none
  | pat :: rest =>
    match readFile env (dir ++ "/" ++ pat) with
    | some bytes =>
      if env.rtParses bytes then some bytes else tryPatternList env dir rest
    | none => tryPatternList env dir rest

/-- The candidate loop of the fast path inside one directory. -/
def tryCandidatesInDir (env : FontEnv) (dir : String) : List String → Option (List Nat)
  | [] => none
  | c :: cs =>
    match tryPatternList env dir (fastPatterns c) with
    | some b => some b
    | none => tryCandidatesInDir env dir cs

/-- The directory loop of the fast path: non-existing directories are
skipped. -/
def fastPathSearch (env : FontEnv) (candidates : List String) : List String → Option (List Nat)
  | [] => none
  | dir :: dirs =>
    if env.existingDirs.contains dir then
      match tryCandidatesInDir env dir candidates with
      | some b => some b
      | none => fastPathSearch env candidates dirs
    else fastPathSearch env candidates dirs

/-- Whether a fontdb face is a .ttc collection (these are skipped because
rusttype cannot read them). -/
def faceIsTtc (face : DbFace) : Bool :=
  match pathExtension face.path with
  | some ext => strToLower ext == "ttc"
  | none => false

/-- The first slow-path loop of load_system_font_bytes_fallback: a non-ttc
face whose lowercased file name contains some lowercased candidate is read and
returned when its bytes parse. -/
def slowPathCandidates (env : FontEnv) (candidates : List String) :
    List DbFace → Option (List Nat)
  | [] => none
  | face :: rest =>
    if faceIsTtc face then slowPathCandidates env candidates rest
    else
      let fileNameLower := strToLower (pathFileName face.path)
      if candidates.any (fun c => strHasSub fileNameLower (strToLower c)) then
        match readFile env face.path with
        | some bytes =>
          if env.rtParses bytes then some bytes
          else slowPathCandidates env candidates rest
        | none => slowPathCandidates env candidates rest
      else slowPathCandidates env candidates rest

/-- The second slow-path loop: any face with a ttf or otf extension whose
bytes read and parse. -/
def slowPathAny (env : FontEnv) : List DbFace → Option (List Nat)
  | [] => none
  | face :: rest =>
    let extOk :=
      match pathExtension face.path with
      | some ext => strToLower ext == "ttf" || strToLower ext == "otf"
      | none => false
    if extOk then
      match readFile env face.path with
      | some bytes => if env.rtParses bytes then some bytes else slowPathAny env rest
      | none => slowPathAny env rest
    else slowPathAny env rest

/-- load_system_font_bytes_fallback in fonts.rs: fast path over the common
directories, then the candidate-matching loop over the font database, then any
usable ttf/otf face, and finally an InvalidFont error when nothing is found.
No embedded fallback bytes exist: the last resort is the error return. -/
def loadSystemFontBytesFallback (env : FontEnv) (candidates : List String) :
    Except String (List Nat) :=
  match fastPathSearch env candidates env.commonFontDirs with
  | some bytes => Except.ok bytes
  | none =>
    match slowPathCandidates env candidates env.dbFaces with
    | some bytes => Except.ok bytes
    | none =>
      match slowPathAny env env.dbFaces with
      | some bytes => Except.ok bytes
      | none => Except.error "No usable system font found for built-in font metrics"

/-- The three supported builtin base families (enum BuiltinVariants in
fonts.rs). -/
inductive BuiltinVariants where
  | Helvetica
  | Times
  | Courier
deriving DecidableEq, Repr

/-- The four style variants (enum FontStyle in fonts.rs). -/
inductive FontStyle where
  | Regular
  | Bold
  | Italic
  | BoldItalic
deriving DecidableEq, Repr

/-- BuiltinVariants::variant in fonts.rs: the concrete builtin font for a base
family and style. -/
def BuiltinVariants.variant : BuiltinVariants → FontStyle → BuiltinFont
  | BuiltinVariants.Helvetica, FontStyle.Regular => BuiltinFont.Helvetica
  | BuiltinVariants.Helvetica, FontStyle.Bold => BuiltinFont.HelveticaBold
  | BuiltinVariants.Helvetica, FontStyle.Italic => BuiltinFont.HelveticaOblique
  | BuiltinVariants.Helvetica, FontStyle.BoldItalic => BuiltinFont.HelveticaBoldOblique
  | BuiltinVariants.Times, FontStyle.Regular => BuiltinFont.TimesRoman
  | BuiltinVariants.Times, FontStyle.Bold => BuiltinFont.TimesBold
  | BuiltinVariants.Times, FontStyle.Italic => BuiltinFont.TimesItalic
  | BuiltinVariants.Times, FontStyle.BoldItalic => BuiltinFont.TimesBoldItalic
  | BuiltinVariants.Courier, FontStyle.Regular => BuiltinFont.Courier
  | BuiltinVariants.Courier, FontStyle.Bold => BuiltinFont.CourierBold
  | BuiltinVariants.Courier, FontStyle.Italic => BuiltinFont.CourierOblique
  | BuiltinVariants.Courier, FontStyle.BoldItalic => BuiltinFont.CourierBoldOblique

/-- The base family selection at the top of load_builtin_font_family. -/
def builtinVariantsOf (name : String) : BuiltinVariants :=
  match strToLower name with
  | "times" | "timesnewroman" | "times new roman" | "serif" => BuiltinVariants.Times
  | "courier" | "couriernew" | "courier new" | "monospace" => BuiltinVariants.Courier
  | _ => BuiltinVariants.Helvetica

/-- The metric-candidate list per base family in load_builtin_font_family. -/
def builtinCandidates : BuiltinVariants → List String
  | BuiltinVariants.Times => ["Times New Roman", "Times", "Liberation Serif"]
  | BuiltinVariants.Courier => ["Courier New", "Courier", "Liberation Mono"]
  | BuiltinVariants.Helvetica => ["Helvetica", "Arial", "Liberation Sans"]

/-- load_builtin_font_family in fonts.rs: selects the base family, loads
metric bytes through load_system_font_bytes_fallback (propagating its error
with the question mark operator), and builds the four faces sharing those
bytes, each referencing the matching builtin font. -/
def loadBuiltinFontFamily (env : FontEnv) (name : String) : Except String FontFamily :=
  let bv := builtinVariantsOf name
  match loadSystemFontBytesFallback env (builtinCandidates bv) with
  | Except.error e => Except.error e
  | Except.ok fontBytes =>
    let mk := fun (st : FontStyle) =>
      ({ bytes := fontBytes, builtin := some (bv.variant st) } : FontData)
    Except.ok
      { regular := mk FontStyle.Regular
        bold := mk FontStyle.Bold
        italic := mk FontStyle.Italic
        bold_italic := mk FontStyle.BoldItalic }

/-- get_font_aliases in fonts.rs. -/
def getFontAliases (name : String) : List String :=
  match strToLower name with
  | "arial" => ["Helvetica", "Liberation Sans", "FreeSans"]
  | "helvetica" => ["Arial", "Liberation Sans", "FreeSans"]
  | "times new roman" | "times" => ["Times", "Times New Roman", "Liberation Serif", "FreeSerif"]
  | "courier new" | "courier" => ["Courier", "Courier New", "Liberation Mono", "FreeMono"]
  | "verdana" => ["DejaVu Sans", "Bitstream Vera Sans"]
  | "georgia" => ["Liberation Serif", "FreeSerif"]
  | "comic sans ms" | "comic sans" => ["Comic Neue", "Comic Relief"]
  | _ => []

/-- The pattern list of the fast path in load_system_font_family_simple. -/
def simplePatterns (candidate : String) : List String :=
  [candidate ++ ".ttf", candidate ++ ".otf",
   candidate ++ " Regular.ttf", candidate ++ "-Regular.ttf",
   (strReplace (strReplace candidate " MS" "") " ms" "") ++ ".ttf"]

/-- The family built by load_system_font_family_simple: the same embedded
bytes reused for all four variants, with no builtin reference. -/
def mkSimpleFamily (fontBytes : List Nat) : FontFamily :=
  let fd : FontData := { bytes := fontBytes, builtin := none }
  { regular := fd, bold := fd, italic := fd, bold_italic := fd }

/-- The pattern loop of the simple fast path: read the file, keep it only if
its stem and the wanted name are prefix-compatible, and build the family when
the genpdfi font constructor accepts the bytes. -/
def simpleTryPatterns (env : FontEnv) (dir : String) (wanted : String) :
    List String → Option FontFamily
  | [] => none
  | pat :: rest =>
    match readFile env (dir ++ "/" ++ pat) with
    | some bytes =>
      let stem := strToLower (pathFileStem (dir ++ "/" ++ pat))
      if !strStartsWith stem wanted && !strStartsWith wanted stem then
        simpleTryPatterns env dir wanted rest
      else if env.fdParses bytes then some (mkSimpleFamily bytes)
      else simpleTryPatterns env dir wanted rest
    | none => simpleTryPatterns env dir wanted rest

/-- The candidate loop of the simple fast path inside one directory. -/
def simpleTryCandidates (env : FontEnv) (dir : String) : List String → Option FontFamily
  | [] => none
  | c :: cs =>
    let wanted := strReplace (strToLower c) " ms" ""
    match simpleTryPatterns env dir wanted (simplePatterns c) with
    | some fam => some fam
    | none => simpleTryCandidates env dir cs

/-- The directory loop of the simple fast path. -/
def simpleFastPath (env : FontEnv) (candidates : List String) :
    List String → Option FontFamily
  | [] => none
  | dir :: dirs =>
    if env.existingDirs.contains dir then
      match simpleTryCandidates env dir candidates with
      | some fam => some fam
      | none => simpleFastPath env candidates dirs
    else simpleFastPath env candidates dirs

/-- The match score of the simple slow path: 3 for an exact family name, 2 for
an exact file stem, 1 for a partial family match, 0 otherwise. -/
def faceScore (face : DbFace) (wanted : String) : Nat :=
  if strToLower face.family == wanted then 3
  else if strToLower (pathFileStem face.path) == wanted then 2
  else if strHasSub (strToLower face.family) wanted then 1
  else 0

/-- The best-scoring non-ttc face of the database for a wanted name.  The
source breaks out of the loop on the first exact match; with the strict
greater-than comparison a later equal score never replaces an earlier one, so
the plain fold computes the same face. -/
def bestFacePath (faces : List DbFace) (wanted : String) : Option String :=
  (faces.foldl
    (fun acc face =>
      if faceIsTtc face then acc
      else
        let score := faceScore face wanted
        if score > acc.1 then (score, some face.path) else acc)
    ((0 : Nat), (none : Option String))).2

/-- The candidate loop of the simple slow path: for each candidate, the best
matching face is read and the family is built when the bytes are accepted; a
read failure or rejected bytes move on to the next candidate. -/
def simpleSlowPath (env : FontEnv) : List String → Option FontFamily
  | [] => none
  | c :: cs =>
    let wanted := strToLower c
    match bestFacePath env.dbFaces wanted with
    | some path =>
      match readFile env path with
      | some bytes =>
        if env.fdParses bytes then some (mkSimpleFamily bytes) else simpleSlowPath env cs
      | none => simpleSlowPath env cs
    | none => simpleSlowPath env cs

/-- load_system_font_family_simple in fonts.rs: the requested name and its
aliases are searched through the fast path over common directories and then
the scored slow path over the font database; when nothing is found an
InvalidFont error is returned. -/
def loadSystemFontFamilySimple (env : FontEnv) (name : String) : Except String FontFamily :=
  let candidates := name :: getFontAliases name
  match simpleFastPath env candidates env.commonFontDirs with
  | some fam => Except.ok fam
  | none =>
    match simpleSlowPath env candidates with
    | some fam => Except.ok fam
    | none =>
      Except.error ("No usable system font found for family '" ++ name ++ "'.")

/-- A font environment with no usable fonts at all: no existing directory, no
readable file, an empty font database. -/
def envNoFonts : FontEnv :=
  { commonFontDirs := ["/usr/share/fonts/truetype", "/usr/share/fonts/TTF",
      "/usr/local/share/fonts"]
    existingDirs := []
    files := []
    dbFaces := []
    rtParses := fun _ => false
    fdParses := fun _ => false }

/-! The Markdown lexer and the PDF byte emission.  lib.rs declares
`pub mod markdown` and calls `Pdf::render_to_bytes`, but neither the markdown
module file nor a render_to_bytes implementation is present under src; both
are modelled from the spec below, with doc comments marking them. -/

/-- ParseError kinds, from spec section 4.1 error model: UnexpectedEndOfInput
(code fence, image/link bracket), MalformedTable, InvalidCharacter (reserved). -/
inductive ParseErrorKind where
  | UnexpectedEndOfInput
  | MalformedTable
  | InvalidCharacter
deriving DecidableEq, Repr

/-- Modelled from the spec: the bounded lookahead of the lexer for a closing
delimiter — splits the input at the first occurrence of the closing character,
none when it does not occur before end of input. -/
def findCloseSplit (close : Char) : List Char → Option (List Char × List Char)
  | [] => none
  | c :: rest =>
    if c == close then some ([], rest)
    else
      match findCloseSplit close rest with
      | some (pre, post) => some (c :: pre, post)
      | none => none

theorem findCloseSplit_post_lt (close : Char) :
    ∀ (cs pre post : List Char), findCloseSplit close cs = some (pre, post) →
      post.length < cs.length := by
  intro cs
  induction cs with
  | nil => intro pre post h; simp [findCloseSplit] at h
  | cons c rest ih =>
    intro pre post h
    unfold findCloseSplit at h
    split at h
    · simp only [Option.some.injEq, Prod.mk.injEq] at h
      obtain ⟨-, h2⟩ := h
      subst h2
      simp
    · split at h
      · rename_i pre2 post2 heq
        simp only [Option.some.injEq, Prod.mk.injEq] at h
        obtain ⟨-, h2⟩ := h
        subst h2
        have := ih pre2 post2 heq
        simp
        omega
      · exact absurd h (by simp)

/-- Modelled from the spec: flushing the literal character buffer of the
lexer into a trailing Text token (bare runs become Text, spec section 4.1). -/
def flushTextBuf (buf : List Char) (toks : List Token) : List Token :=
  if buf.isEmpty then toks else toks ++ [Token.Text (String.mk buf)]

/-- Modelled from the spec: the inline fragment of the Markdown lexer (the
`markdown` module is declared in lib.rs but its file is not under src).  Spec
sections 4.1 and 7: `[text](url)` lexes to a Link and `![alt](url)` to an
Image with flattened payload strings; an `![` whose `]` never arrives before
end of input is malformed image syntax and fails with UnexpectedEndOfInput;
any other unclosed delimiter degrades to literal text; bare runs become Text.
Errors abort the scan and no token list is produced.  Block constructs are
outside this modelled fragment. -/
def lexChars (cs : List Char) (buf : List Char) : Except ParseErrorKind (List Token) :=
  match cs with
  | [] => Except.ok (flushTextBuf buf [])
  | '!' :: '[' :: rest =>
    match hfa : findCloseSplit ']' rest with
    | none => Except.error ParseErrorKind.UnexpectedEndOfInput
    | some (altChars, afterAlt) =>
      match afterAlt with
      | '(' :: rest2 =>
        match hfu : findCloseSplit ')' rest2 with
        | none => lexChars (('[' : Char) :: rest) (buf ++ ['!'])
        | some (urlChars, afterUrl) =>
          match lexChars afterUrl [] with
          | Except.ok toks =>
            Except.ok (flushTextBuf buf []
              ++ [Token.Image (String.mk altChars) (String.mk urlChars)] ++ toks)
          | Except.error e => Except.error e
      | _ => lexChars (('[' : Char) :: rest) (buf ++ ['!'])
  | '[' :: rest =>
    match hfa : findCloseSplit ']' rest with
    | none => lexChars rest (buf ++ ['['])
    | some (textChars, afterText) =>
      match afterText with
      | '(' :: rest2 =>
        match hfu : findCloseSplit ')' rest2 with
        | none => lexChars rest (buf ++ ['['])
        | some (urlChars, afterUrl) =>
          match lexChars afterUrl [] with
          | Except.ok toks =>
            Except.ok (flushTextBuf buf []
              ++ [Token.Link (String.mk textChars) (String.mk urlChars)] ++ toks)
          | Except.error e => Except.error e
      | _ => lexChars rest (buf ++ ['['])
  | c :: rest => lexChars rest (buf ++ [c])
termination_by cs.length
decreasing_by
  all_goals simp_wf
  all_goals
    have h1 := findCloseSplit_post_lt ']' _ _ _ hfa
  all_goals
    have h2 := findCloseSplit_post_lt ')' _ _ _ hfu
  all_goals simp only [List.length_cons] at h1
  all_goals omega

/-- Modelled from the spec: Lexer::parse, the public lexer operation of the
missing markdown module, restricted to the inline fragment above. -/
def lexerParse (source : String) : Except ParseErrorKind (List Token) :=
  lexChars source.toList []

/-- Modelled from the spec: the PdfWriter pagination (section 4.4, external
collaborator).  Content is laid out into pages with no element dropped, and an
empty document still contains one empty page. -/
def paginate (elements : List Element) : List (List Element) :=
  if elements.isEmpty then [[]] else [elements]

/-- The bytes of a string (one byte per character code, adequate for the ASCII
markers inspected by the claims). -/
def strBytes (s : String) : List Nat := s.toList.map Char.toNat

/-- Modelled from the spec: the serialized content of one paragraph run inside
the PDF stream. -/
def runBytes : Run → List Nat
  | Run.styled text _ => strBytes text
  | Run.link text url _ => strBytes text ++ strBytes url

/-- Modelled from the spec: the serialized content of one document element. -/
def elementBytes : Element → List Nat
  | Element.brk _ => strBytes "BT ET "
  | Element.paragraph runs => (runs.map runBytes).flatten

/-- Modelled from the spec: the byte contribution of one page, a page object
followed by the serialized elements. -/
def pageBytes (page : List Element) : List Nat :=
  strBytes "1 0 obj << /Type /Page /Parent 2 0 R >> endobj " ++ (page.map elementBytes).flatten

/-- Modelled from the spec: the cross-reference table and trailer that close a
PDF file. -/
def pdfTrailer : String :=
  "xref 0 4 0000000000 65535 f trailer << /Size 4 /Root 1 0 R >> startxref 0 %%EOF"

/-- Modelled from the spec: Pdf::render_to_bytes (called from lib.rs but not
present under src) together with the genpdfi byte emission.  Section 6: the
output is a syntactically valid PDF starting with the bytes %PDF- and
containing at least one page; rendering to a byte stream involves no file
system and does not fail. -/
def renderToBytes (doc : PDoc) : Except String (List Nat) :=
  Except.ok (strBytes "%PDF-1.4 " ++ ((paginate doc.elements).map pageBytes).flatten
    ++ strBytes pdfTrailer)

/-- Errors of the conversion process, from lib.rs (enum MdpError). -/
inductive MdpError where
  | ParseError (message : String) (position : Option Nat) (suggestion : Option String)
  | PdfError (message : String) (path : Option String) (suggestion : Option String)
  | FontError (font_name : String) (message : String) (suggestion : String)
  | ConfigError (message : String) (suggestion : String)
  | IoError (message : String) (path : String) (suggestion : String)
deriving DecidableEq, Repr

/-- Modelled from the spec: the Debug formatting of a lexer error value that
lib.rs turns into the ParseError message; the missing markdown module defines
the error type, whose kinds come from spec section 4.1. -/
def parseErrorDebugStr : ParseErrorKind → String
  | ParseErrorKind.UnexpectedEndOfInput => "UnexpectedEndOfInput"
  | ParseErrorKind.MalformedTable => "MalformedTable"
  | ParseErrorKind.InvalidCharacter => "InvalidCharacter"

/-- The suggestion attached to a parse error by parse_into_bytes in lib.rs:
messages containing UnexpectedEndOfInput get the unclosed-delimiters hint. -/
def mdpSuggestionFor (msg : String) : String :=
  if strHasSub msg "UnexpectedEndOfInput" then
    "Check for unclosed code blocks (```), links, or image tags"
  else
    "Verify your Markdown syntax is valid. Try testing with a simpler document first."

/-- parse_into_bytes in lib.rs: lex the markdown (mapping a lexer error to
MdpError::ParseError with the message from the Debug formatting and a
suggestion), load the style configuration, render the tokens into a document
and emit its bytes (mapping an emission error to MdpError::PdfError).  The
font families loaded by Pdf::new select glyph data embedded in the byte stream
and do not influence the document elements; they are not threaded through
here (their loading behavior is treated separately with the font resolver
embedding). -/
def parseIntoBytes (markdown : String) (config : ConfigSource) :
    Except MdpError (List Nat) :=
  match lexerParse markdown with
  | Except.error e =>
    let msg := parseErrorDebugStr e
    Except.error (MdpError.ParseError msg none (some (mdpSuggestionFor msg)))
  | Except.ok tokens =>
    let style := loadConfigFromSource config
    let document := renderIntoDocument style tokens
    match renderToBytes document with
    | Except.ok pdfData => Except.ok pdfData
    | Except.error err =>
      Except.error (MdpError.PdfError err none
        (some "Check available memory and try with a smaller document"))

/-! Theorems for the claims. -/

theorem paginate_singleton (es : List Element) : ∃ p, paginate es = [p] := by
  unfold paginate
  split
  · exact ⟨[], rfl⟩
  · exact ⟨es, rfl⟩

theorem strBytes_append (s t : String) : strBytes (s ++ t) = strBytes s ++ strBytes t := by
  simp [strBytes, String.toList]

/-- C1: for every token sequence and every style record, rendering to bytes
succeeds and returns a byte sequence starting with the five bytes of %PDF- and
of length at least 100, laid out on at least one page; in particular this
holds for the empty token sequence.  The byte emission (Pdf::render_to_bytes
and the PdfWriter) is modelled from the spec, since it is not under src. -/
theorem C1_render_to_bytes_valid_pdf (sm : StyleMatch) (tokens : List Token) :
    ∃ pdfData, renderToBytes (renderIntoDocument sm tokens) = Except.ok pdfData ∧
      pdfData.take 5 = strBytes "%PDF-" ∧
      100 ≤ pdfData.length ∧
      1 ≤ (paginate (renderIntoDocument sm tokens).elements).length := by
  obtain ⟨p, hp⟩ := paginate_singleton (renderIntoDocument sm tokens).elements
  refine ⟨_, rfl, ?_, ?_, ?_⟩
  · rfl
  · simp only [List.length_append]
    rw [hp]
    have h1 : (strBytes "%PDF-1.4 ").length = 9 := by rfl
    have h2 : (strBytes pdfTrailer).length = 79 := by rfl
    have h3 : ([p].map pageBytes).flatten.length =
        (strBytes "1 0 obj << /Type /Page /Parent 2 0 R >> endobj ").length
          + (p.map elementBytes).flatten.length := by
      simp [pageBytes]
    have h4 : (strBytes "1 0 obj << /Type /Page /Parent 2 0 R >> endobj ").length = 47 := by rfl
    omega
  · rw [hp]
    simp

/-- C10: flushing an empty inline buffer leaves the document unchanged — no
Break and no Paragraph are pushed — so a Newline token scanned with an empty
buffer contributes no elements, and two consecutive Newline tokens produce an
empty document. -/
theorem C10_empty_flush_no_elements (sm : StyleMatch) (rest : List Token) :
    flushParagraph sm [] = [] ∧
    processTokens sm (Token.Newline :: rest) [] = processTokens sm rest [] ∧
    processTokens sm [Token.Newline, Token.Newline] [] = [] := by
  refine ⟨rfl, ?_, rfl⟩
  simp [processTokens, flushParagraph]

/-- C4 counterexample: a document consisting of one Image token renders to a
Break, an empty Paragraph and a Break — the alt text does not appear in any
run, so the image does not degrade to its alt text. -/
theorem C4_counterexample_image_dropped :
    processTokens StyleMatch.default [Token.Image "alt" "url"] [] =
      [Element.brk 0, Element.paragraph [], Element.brk 0] ∧
    renderInlineList StyleMatch.default (GStyle.new.withFontSize 8)
      [Token.Image "alt" "url"] = [] := by
  exact ⟨rfl, rfl⟩

/-- C4 amended: Image tokens are ignored by inline rendering — they fall into
the catch-all arm, emit no run at all (in particular no Text run with the alt
text), and never cause a rendering error (rendering is a total function). -/
theorem C4_image_ignored (sm : StyleMatch) (style : GStyle) (alt url : String)
    (rest : List Token) :
    renderInlineList sm style (Token.Image alt url :: rest) =
      renderInlineList sm style rest := by
  simp [renderInlineList, renderInlineOne]

/-- C3 counterexample: with the default style record (whose link style sets
underline), rendering a Link token pushes a clickable run whose style carries
the link text color but not the underline decoration. -/
theorem C3_counterexample_link_not_underlined :
    renderInlineList StyleMatch.default (GStyle.new.withFontSize 8)
        [Token.Link "text" "url"] =
      [Run.link "text" "url"
        { fontSize := some 8, bold := false, italic := false, underline := false,
          color := some (128, 128, 128) }] ∧
    StyleMatch.default.link.underline = true := by
  exact ⟨rfl, rfl⟩

/-- C3 amended: every Link token rendered inline pushes a clickable link run
whose style carries the configured link text color override; the underline
decoration of the link style is not applied — the run keeps the underline
state of the base style. -/
theorem C3_link_run_color_no_underline (sm : StyleMatch) (style : GStyle)
    (text url : String) (rest : List Token) :
    renderInlineList sm style (Token.Link text url :: rest) =
      Run.link text url (applyColorOpt style sm.link.text_color)
        :: renderInlineList sm style rest ∧
    (applyColorOpt style sm.link.text_color).underline = style.underline ∧
    (∀ c, sm.link.text_color = some c →
      (applyColorOpt style sm.link.text_color).color = some c) := by
  refine ⟨?_, ?_, ?_⟩
  · simp [renderInlineList, renderInlineOne]
  · cases h : sm.link.text_color <;> simp [applyColorOpt, GStyle.withColor]
  · intro c hc
    rw [hc]
    simp [applyColorOpt, GStyle.withColor]

/-- C3 witness: the amended link theorem applied at a concrete input, with the
color hypothesis discharged at the default style record. -/
theorem C3_witness :
    (applyColorOpt (GStyle.new.withFontSize 8)
      StyleMatch.default.link.text_color).color = some (128, 128, 128) :=
  (C3_link_run_color_no_underline StyleMatch.default (GStyle.new.withFontSize 8)
    "text" "url" []).2.2 (128, 128, 128) rfl

/-- C5: every Heading token emits a Break with the before spacing of the
selected level style, then one paragraph of the recursively rendered content
in that style, then a Break with the after spacing; level 1 selects heading_1,
level 2 selects heading_2, and every level at least 3 selects heading_3. -/
theorem C5_heading_levels (sm : StyleMatch) (content : List Token) (L : Nat)
    (rest cur : List Token) :
    renderHeading sm content L =
      [Element.brk (headingStyleOf sm L).before_spacing,
       Element.paragraph (renderInlineList sm (headingGStyle (headingStyleOf sm L)) content),
       Element.brk (headingStyleOf sm L).after_spacing] ∧
    headingStyleOf sm 1 = sm.heading_1 ∧
    headingStyleOf sm 2 = sm.heading_2 ∧
    (3 ≤ L → headingStyleOf sm L = sm.heading_3) ∧
    processTokens sm (Token.Heading content L :: rest) cur =
      flushParagraph sm cur ++ renderHeading sm content L ++ processTokens sm rest [] := by
  refine ⟨rfl, rfl, rfl, ?_, ?_⟩
  · intro hL
    obtain ⟨n, rfl⟩ : ∃ n, L = n + 3 := ⟨L - 3, by omega⟩
    rfl
  · simp [processTokens]

/-- C5 witness: the heading theorem applied at level 6, discharging the
level hypothesis. -/
theorem C5_witness :
    headingStyleOf StyleMatch.default 6 = StyleMatch.default.heading_3 :=
  (C5_heading_levels StyleMatch.default [] 6 [] []).2.2.2.1 (by omega)

/-- C6: a Code token is dispatched as a fenced block exactly when its content
contains a newline character (otherwise it joins the inline buffer); a fenced
block renders as a Break with the code before spacing, one paragraph per line
of the content split on newlines, each line prefixed by exactly four spaces in
the code style, a Break with the code after spacing; and the language string
has no effect on the output. -/
theorem C6_code_block_fenced (sm : StyleMatch) (lang lang2 content : String)
    (rest cur : List Token) :
    (strContainsChar content (Char.ofNat 10) = true →
      processTokens sm (Token.Code lang content :: rest) cur =
        flushParagraph sm cur ++ renderCodeBlock sm lang content
          ++ processTokens sm rest []) ∧
    (strContainsChar content (Char.ofNat 10) = false →
      processTokens sm (Token.Code lang content :: rest) cur =
        processTokens sm rest (cur ++ [Token.Code lang content])) ∧
    renderCodeBlock sm lang content =
      [Element.brk sm.code.before_spacing]
        ++ (strSplitChar content (Char.ofNat 10)).map (fun line =>
            Element.paragraph [Run.styled ("    " ++ line)
              (applyColorOpt (GStyle.new.withFontSize sm.code.size) sm.code.text_color)])
        ++ [Element.brk sm.code.after_spacing] ∧
    ("    ").toList = List.replicate 4 ' ' ∧
    renderCodeBlock sm lang content = renderCodeBlock sm lang2 content := by
  refine ⟨?_, ?_, rfl, by decide, rfl⟩
  · intro h
    simp [processTokens, h]
  · intro h
    simp [processTokens, h]

/-- C6 witness: the code block theorem applied at concrete fenced and inline
contents, discharging the newline hypotheses. -/
theorem C6_witness :
    processTokens StyleMatch.default [Token.Code "rust" "a\nb"] [] =
      flushParagraph StyleMatch.default [] ++ renderCodeBlock StyleMatch.default "rust" "a\nb"
        ++ processTokens StyleMatch.default [] [] ∧
    processTokens StyleMatch.default [Token.Code "rust" "x"] [] =
      processTokens StyleMatch.default [] ([] ++ [Token.Code "rust" "x"]) :=
  ⟨(C6_code_block_fenced StyleMatch.default "rust" "rust" "a\nb" [] []).1 rfl,
   (C6_code_block_fenced StyleMatch.default "rust" "rust" "x" [] []).2.1 rfl⟩

theorem strRepeat_toList_spaces :
    ∀ d : Nat, (strRepeat "    " d).toList = List.replicate (4 * d) ' ' := by
  intro d
  induction d with
  | zero => rfl
  | succ n ih =>
    show (strRepeat "    " n ++ "    ").toList = _
    rw [String.toList, String.data_append]
    rw [show ("    ".data) = List.replicate 4 ' ' from rfl]
    rw [String.toList] at ih
    rw [ih]
    rw [show 4 * (n + 1) = 4 * n + 4 by omega, List.replicate_add]

/-- C7: a ListItem rendered at nesting depth d emits a Break, one paragraph
beginning with the marker run — four spaces per depth level of indent followed
by a dash for unordered items or the number and a dot for ordered items — then
the inline rendering of its content with nested ListItems filtered out, then a
Break; afterwards every nested ListItem is rendered recursively at depth
d + 1, so deeper items get strictly longer all-space indents. -/
theorem C7_list_item_rendering (sm : StyleMatch) (content : List Token) (ordered : Bool)
    (number : Option Nat) (d : Nat) :
    (renderListItem sm content ordered number d =
      [Element.brk sm.list_item.before_spacing,
       Element.paragraph
         (listMarkerRuns (GStyle.new.withFontSize sm.list_item.size) ordered number d
           ++ renderInlineList sm (GStyle.new.withFontSize sm.list_item.size)
                (content.filter (fun t => !isListItemTok t))),
       Element.brk sm.list_item.after_spacing] ++ renderNestedItems sm content (d + 1)) ∧
    (ordered = false →
      listMarkerRuns (GStyle.new.withFontSize sm.list_item.size) ordered number d =
        [Run.styled (strRepeat "    " d ++ "- ")
          (GStyle.new.withFontSize sm.list_item.size)]) ∧
    (∀ n, ordered = true → number = some n →
      listMarkerRuns (GStyle.new.withFontSize sm.list_item.size) ordered number d =
        [Run.styled (strRepeat "    " d ++ toString n ++ ". ")
          (GStyle.new.withFontSize sm.list_item.size)]) ∧
    (strRepeat "    " d).toList = List.replicate (4 * d) ' ' ∧
    (∀ c o n rest2, renderNestedItems sm (Token.ListItem c o n :: rest2) (d + 1) =
      renderListItem sm c o n (d + 1) ++ renderNestedItems sm rest2 (d + 1)) ∧
    (∀ t rest2, isListItemTok t = false →
      renderNestedItems sm (t :: rest2) (d + 1) = renderNestedItems sm rest2 (d + 1)) := by
  refine ⟨?_, ?_, ?_, strRepeat_toList_spaces d, ?_, ?_⟩
  · rw [renderListItem]
  · intro h
    subst h
    simp [listMarkerRuns]
  · intro n h1 h2
    subst h1
    subst h2
    simp [listMarkerRuns]
  · intro c o n rest2
    rw [renderNestedItems]
  · intro t rest2 ht
    cases t <;> simp [renderNestedItems] <;> simp [isListItemTok] at ht

/-- C7 witness: the list item theorem applied at concrete depth 2, discharging
the unordered-marker, ordered-marker and non-list-token hypotheses. -/
theorem C7_witness :
    listMarkerRuns (GStyle.new.withFontSize StyleMatch.default.list_item.size) false none 2 =
      [Run.styled (strRepeat "    " 2 ++ "- ")
        (GStyle.new.withFontSize StyleMatch.default.list_item.size)] ∧
    listMarkerRuns (GStyle.new.withFontSize StyleMatch.default.list_item.size) true (some 7) 2 =
      [Run.styled (strRepeat "    " 2 ++ toString 7 ++ ". ")
        (GStyle.new.withFontSize StyleMatch.default.list_item.size)] ∧
    renderNestedItems StyleMatch.default [Token.Text "x"] 3 =
      renderNestedItems StyleMatch.default [] 3 :=
  ⟨(C7_list_item_rendering StyleMatch.default [] false none 2).2.1 rfl,
   (C7_list_item_rendering StyleMatch.default [] true (some 7) 2).2.2.1 7 rfl rfl,
   (C7_list_item_rendering StyleMatch.default [] true (some 7) 2).2.2.2.2.2
     (Token.Text "x") [] rfl⟩

theorem fastPathSearch_no_dirs (env : FontEnv) (hd : env.existingDirs = [])
    (cands : List String) : ∀ dirs, fastPathSearch env cands dirs = none := by
  intro dirs
  induction dirs with
  | nil => rfl
  | cons d ds ih => simp [fastPathSearch, hd, ih]

theorem simpleFastPath_no_dirs (env : FontEnv) (hd : env.existingDirs = [])
    (cands : List String) : ∀ dirs, simpleFastPath env cands dirs = none := by
  intro dirs
  induction dirs with
  | nil => rfl
  | cons d ds ih => simp [simpleFastPath, hd, ih]

theorem simpleSlowPath_no_faces (env : FontEnv) (hf : env.dbFaces = []) :
    ∀ cs, simpleSlowPath env cs = none := by
  intro cs
  induction cs with
  | nil => rfl
  | cons c cs2 ih => simp [simpleSlowPath, hf, bestFacePath, ih]

/-- C2 counterexample: in an environment with no usable system font at all,
resolving the builtin Helvetica family fails with an InvalidFont error, and so
does a System font request — no embedded TrueType stub is returned. -/
theorem C2_counterexample_no_stub :
    loadBuiltinFontFamily envNoFonts "helvetica" =
      Except.error "No usable system font found for built-in font metrics" ∧
    loadSystemFontFamilySimple envNoFonts "Georgia" =
      Except.error "No usable system font found for family 'Georgia'." :=
  ⟨rfl, rfl⟩

/-- C2 amended: Builtin and System font resolution can fail.  When the font
byte search errors, load_builtin_font_family propagates exactly that error
(and when it succeeds the four faces share the found bytes with the builtin
references); when no common directory exists and the font database is empty,
the byte search ends in the InvalidFont error — there is no embedded stub
fallback — and a System font request fails with its own InvalidFont error. -/
theorem C2_font_resolution_fails_without_fonts (env : FontEnv) (name : String) :
    (∀ e, loadSystemFontBytesFallback env (builtinCandidates (builtinVariantsOf name)) =
        Except.error e → loadBuiltinFontFamily env name = Except.error e) ∧
    (∀ fontBytes,
      loadSystemFontBytesFallback env (builtinCandidates (builtinVariantsOf name)) =
        Except.ok fontBytes →
      loadBuiltinFontFamily env name = Except.ok
        (FontFamily.mk
          (FontData.mk fontBytes (some ((builtinVariantsOf name).variant FontStyle.Regular)))
          (FontData.mk fontBytes (some ((builtinVariantsOf name).variant FontStyle.Bold)))
          (FontData.mk fontBytes (some ((builtinVariantsOf name).variant FontStyle.Italic)))
          (FontData.mk fontBytes
            (some ((builtinVariantsOf name).variant FontStyle.BoldItalic))))) ∧
    (env.existingDirs = [] → env.dbFaces = [] →
      loadSystemFontBytesFallback env (builtinCandidates (builtinVariantsOf name)) =
        Except.error "No usable system font found for built-in font metrics") ∧
    (env.existingDirs = [] → env.dbFaces = [] →
      loadSystemFontFamilySimple env name =
        Except.error ("No usable system font found for family '" ++ name ++ "'.")) := by
  refine ⟨?_, ?_, ?_, ?_⟩
  · intro e he
    simp [loadBuiltinFontFamily, he]
  · intro fontBytes hb
    simp [loadBuiltinFontFamily, hb]
  · intro h1 h2
    unfold loadSystemFontBytesFallback
    rw [fastPathSearch_no_dirs env h1, h2]
    rfl
  · intro h1 h2
    unfold loadSystemFontFamilySimple
    simp only []
    rw [simpleFastPath_no_dirs env h1, simpleSlowPath_no_faces env h2]

/-- C2 witness: the amended font theorem applied at the fontless environment
and the name helvetica, discharging the emptiness hypotheses. -/
theorem C2_witness :
    loadSystemFontBytesFallback envNoFonts
        (builtinCandidates (builtinVariantsOf "helvetica")) =
      Except.error "No usable system font found for built-in font metrics" ∧
    loadSystemFontFamilySimple envNoFonts "helvetica" =
      Except.error ("No usable system font found for family '" ++ "helvetica" ++ "'.") :=
  ⟨(C2_font_resolution_fails_without_fonts envNoFonts "helvetica").2.2.1 rfl rfl,
   (C2_font_resolution_fails_without_fonts envNoFonts "helvetica").2.2.2 rfl rfl⟩

/-- C8: style configuration loading is total and degrades to defaults — the
Default source, an unreadable File source and content rejected by the TOML
parser all give the default StyleMatch; parse_style depends only on the
recognized style keys, so unknown keys are ignored; and each per-field lookup
that fails (missing key or wrong value shape) leaves exactly that field at its
default. -/
theorem C8_config_degrades_to_defaults :
    loadConfigFromSource ConfigSource.Default = StyleMatch.default ∧
    loadConfigFromSource (ConfigSource.File none) = StyleMatch.default ∧
    parseConfigString none = StyleMatch.default ∧
    loadConfigFromSource (ConfigSource.File (some none)) = StyleMatch.default ∧
    loadConfigFromSource (ConfigSource.Embedded none) = StyleMatch.default ∧
    (∀ v w d, (∀ k ∈ styleKeys, v.get k = w.get k) →
      parseStyle (some v) d = parseStyle (some w) d) ∧
    (∀ v d, (v.get "size").bind TomlValue.asInteger = none →
      (parseStyle (some v) d).size = d.size) ∧
    (∀ v d, (v.get "beforespacing").bind TomlValue.asFloat = none →
      (parseStyle (some v) d).before_spacing = d.before_spacing) ∧
    (∀ v d, (v.get "afterspacing").bind TomlValue.asFloat = none →
      (parseStyle (some v) d).after_spacing = d.after_spacing) ∧
    (∀ v d, parseColor (some v) "textcolor" = none →
      (parseStyle (some v) d).text_color = d.text_color) ∧
    (∀ v d, parseColor (some v) "backgroundcolor" = none →
      (parseStyle (some v) d).background_color = d.background_color) ∧
    (∀ v d, parseAlignment (v.get "alignment") = none →
      (parseStyle (some v) d).alignment = d.alignment) ∧
    (∀ v d, (v.get "fontfamily").bind TomlValue.asStr = none →
      (parseStyle (some v) d).font_family = d.font_family) ∧
    (∀ v d, (v.get "bold").bind TomlValue.asBool = none →
      (parseStyle (some v) d).bold = d.bold) ∧
    (∀ v d, (v.get "italic").bind TomlValue.asBool = none →
      (parseStyle (some v) d).italic = d.italic) ∧
    (∀ v d, (v.get "underline").bind TomlValue.asBool = none →
      (parseStyle (some v) d).underline = d.underline) ∧
    (∀ v d, (v.get "strikethrough").bind TomlValue.asBool = none →
      (parseStyle (some v) d).strikethrough = d.strikethrough) := by
  refine ⟨rfl, rfl, rfl, rfl, rfl, ?_, ?_, ?_, ?_, ?_, ?_, ?_, ?_, ?_, ?_, ?_, ?_⟩
  · intro v w d h
    have h1 := h "size" (by simp [styleKeys])
    have h2 := h "beforespacing" (by simp [styleKeys])
    have h3 := h "afterspacing" (by simp [styleKeys])
    have h4 := h "textcolor" (by simp [styleKeys])
    have h5 := h "backgroundcolor" (by simp [styleKeys])
    have h6 := h "alignment" (by simp [styleKeys])
    have h7 := h "fontfamily" (by simp [styleKeys])
    have h8 := h "bold" (by simp [styleKeys])
    have h9 := h "italic" (by simp [styleKeys])
    have h10 := h "underline" (by simp [styleKeys])
    have h11 := h "strikethrough" (by simp [styleKeys])
    simp only [parseStyle, parseColor, parseAlignment, Option.some_bind,
      h1, h2, h3, h4, h5, h6, h7, h8, h9, h10, h11]
  all_goals intro v d h
  all_goals simp [parseStyle, h]

/-- C8 witness: the configuration theorem applied at concrete table values,
discharging the unknown-key hypothesis (a table with an extra junk key agrees
with one without it on every recognized key) and a malformed size value. -/
theorem C8_witness :
    parseStyle
        (some (TomlValue.table [("size", TomlValue.integer 9), ("junk", TomlValue.str "x")]))
        StyleMatch.default.text =
      parseStyle (some (TomlValue.table [("size", TomlValue.integer 9)]))
        StyleMatch.default.text ∧
    (parseStyle (some (TomlValue.table [("size", TomlValue.str "bad")]))
        StyleMatch.default.text).size = StyleMatch.default.text.size :=
  ⟨C8_config_degrades_to_defaults.2.2.2.2.2.1
      (TomlValue.table [("size", TomlValue.integer 9), ("junk", TomlValue.str "x")])
      (TomlValue.table [("size", TomlValue.integer 9)])
      StyleMatch.default.text
      (by
        intro k hk
        simp only [styleKeys, List.mem_cons, List.mem_singleton] at hk
        rcases hk with rfl | rfl | rfl | rfl | rfl | rfl | rfl | rfl | rfl | rfl | rfl | h
        · rfl
        · rfl
        · rfl
        · rfl
        · rfl
        · rfl
        · rfl
        · rfl
        · rfl
        · rfl
        · rfl
        · exact absurd h (by simp)),
   C8_config_degrades_to_defaults.2.2.2.2.2.2.1
      (TomlValue.table [("size", TomlValue.str "bad")]) StyleMatch.default.text rfl⟩

/-- C9: parsing the input "![no close" — an image opener with no closing
bracket before end of input — fails with a ParseError of kind
UnexpectedEndOfInput; an error excludes any token stream (parse yields one
Except value, so no partial stream accompanies an error); and parse_into_bytes
surfaces the failure to the caller as a ParseError value carrying the kind in
its message and the unclosed-delimiters suggestion, for every configuration
source.  The lexer itself is modelled from the spec (the markdown module is
not under src). -/
theorem C9_malformed_image_error (cfg : ConfigSource) :
    lexerParse "![no close" = Except.error ParseErrorKind.UnexpectedEndOfInput ∧
    parseIntoBytes "![no close" cfg =
      Except.error (MdpError.ParseError "UnexpectedEndOfInput" none
        (some "Check for unclosed code blocks (```), links, or image tags")) ∧
    (∀ src e, lexerParse src = Except.error e →
      ∀ toks, lexerParse src ≠ Except.ok toks) := by
  have hchars : "![no close".toList = ['!', '[', 'n', 'o', ' ', 'c', 'l', 'o', 's', 'e'] := by
    decide
  have hlex : lexerParse "![no close" = Except.error ParseErrorKind.UnexpectedEndOfInput := by
    unfold lexerParse
    rw [hchars]
    simp [lexChars, findCloseSplit]
  refine ⟨hlex, ?_, ?_⟩
  · unfold parseIntoBytes
    rw [hlex]
    have hsub : strHasSub "UnexpectedEndOfInput" "UnexpectedEndOfInput" = true := by decide
    simp [parseErrorDebugStr, mdpSuggestionFor, hsub]
  · intro src e he toks hok
    rw [he] at hok
    exact Except.noConfusion hok

/-- C9 witness: the malformed image theorem applied at its own concrete input,
discharging the error hypothesis of the no-partial-stream conjunct. -/
theorem C9_witness :
    lexerParse "![no close" ≠ Except.ok [] :=
  (C9_malformed_image_error ConfigSource.Default).2.2 "![no close"
    ParseErrorKind.UnexpectedEndOfInput
    (C9_malformed_image_error ConfigSource.Default).1 []

end M2P
